import Mathlib

/-!
Verification of the wafer-detection dashboard and analysis backend.

The definitions in the first part of this file are shallow embeddings of the
TypeScript source of the repository (the wafer-detection dashboard component,
the SPC page and the notifications page).  JavaScript numbers are modelled as
rationals (`ℚ`), records as structures, union string types as `String`, and
`Map<string, number>` as an insertion-ordered association list.  Components
whose code lives only in the analysis backend (not present among the frontend
sources) are modelled from the specification and marked as such in their doc
comments.
-/

namespace WaferDetect

/-- One entry of a probability distribution (interface `PatternProbability`). -/
structure PatternProbability where
  pattern : String
  probability : ℚ
  deriving DecidableEq

/-- One classifier member result (interface `AgentResult`).  The `icon` field
of the source interface is a React node used only for display and is omitted
from the embedding. -/
structure AgentResult where
  name : String
  model : String
  topPattern : String
  topProbabilities : List PatternProbability
  confidence : ℚ
  qualityFlag : Option String
  description : String
  rootCauses : List String
  actionSuggestions : List String
  heatmapUrl : Option String
  deriving DecidableEq

/-- Interface `IngestionDetails`. -/
structure IngestionDetails where
  waferMapShape : List Nat
  tensorShape : List Nat
  nonWaferCount : Nat
  normalCount : Nat
  defectCount : Nat
  deriving DecidableEq

/-- Interface `AnalysisDetails`; `majorIssues` entries are class/probability pairs. -/
structure AnalysisDetails where
  consistencyScore : ℚ
  issuesFound : List String
  recommendation : String
  majorIssues : List (String × ℚ)
  deriving DecidableEq

/-- Interface `ValidationDetails`; `criteriaChecks` entries are name/passed pairs. -/
structure ValidationDetails where
  attempts : Nat
  maxAttempts : Nat
  criteriaChecks : List (String × Bool)
  passed : Bool
  deriving DecidableEq

/-- Interface `TriggerAction`. -/
structure TriggerAction where
  alertSent : Bool
  recipient : String
  subject : String
  severity : String
  actions : List String
  deriving DecidableEq

/-- Interface `WaferAnalysis`: the per-wafer record produced by the batch
analysis loop.  `fullProbabilityDistribution` is a `Record<string, number>`
modelled as an association list. -/
structure WaferAnalysis where
  waferId : String
  image : String
  fileName : String
  detectedPattern : String
  agentResults : List AgentResult
  finalVerdict : String
  confidence : ℚ
  fullProbabilityDistribution : List (String × ℚ)
  explanation : String
  severity : String
  ingestionDetails : Option IngestionDetails := none
  analysisDetails : Option AnalysisDetails := none
  validationDetails : Option ValidationDetails := none
  triggerAction : Option TriggerAction := none
  modelUsed : Option String := none
  deviceUsed : Option String := none
  deriving DecidableEq

/-- One entry of `LotAnalysis.defectDistribution`. -/
structure DefectEntry where
  name : String
  count : Nat
  severity : String
  deriving DecidableEq

/-- One entry of `LotAnalysis.systematicIssues`. -/
structure SystematicIssue where
  pattern : String
  frequency : Nat
  trend : String
  rootCause : String
  deriving DecidableEq

/-- One entry of `LotAnalysis.recommendations`. -/
structure Recommendation where
  priority : String
  action : String
  estimatedImpact : String
  deriving DecidableEq

/-- Interface `LotAnalysis`.  The `lotId` field of the source is a random
string (`LOT-` followed by a random number) and carries no information about
the aggregation, so it is left out of the deterministic embedding. -/
structure LotAnalysis where
  totalWafers : Nat
  defectiveWafers : Nat
  yieldRate : ℚ
  defectDistribution : List DefectEntry
  systematicIssues : List SystematicIssue
  recommendations : List Recommendation
  deriving DecidableEq

/-- `patternCounts.set(pattern, (patternCounts.get(pattern) || 0) + 1)` on a
JavaScript `Map`: increment the entry of key `p`, inserting it at the end when
absent (JavaScript `Map`s iterate in insertion order). -/
def bump : List (String × Nat) → String → List (String × Nat)
  | [], p => [(p, 1)]
  | (q, c) :: rest, p => if q = p then (q, c + 1) :: rest else (q, c) :: bump rest p

/-- Fold a list of pattern strings into the insertion-ordered count map. -/
def stringCounts (ps : List String) : List (String × Nat) :=
  ps.foldl bump []

/-- The count map built by `generateLotAnalysis` over `analyses`. -/
def patternCounts (analyses : List WaferAnalysis) : List (String × Nat) :=
  stringCounts (analyses.map (fun w => w.detectedPattern))

/-- The severity ternary of `generateLotAnalysis`:
`count > 3 ? "High" : count > 1 ? "Medium" : "Low"`. -/
def severityFor (count : Nat) : String :=
  if count > 3 then "High" else if count > 1 then "Medium" else "Low"

/-- Insert an entry into a list sorted by descending count, keeping existing
strictly-greater entries in front (the stable descending sort produced by
`.sort((a, b) => b.count - a.count)`). -/
def insertDesc (e : DefectEntry) : List DefectEntry → List DefectEntry
  | [] => [e]
  | x :: xs => if e.count < x.count then x :: insertDesc e xs else e :: x :: xs

/-- Stable sort by descending `count`. -/
def sortDesc : List DefectEntry → List DefectEntry
  | [] => []
  | x :: xs => insertDesc x (sortDesc xs)

/-- The `defectDistribution` computation of `generateLotAnalysis`: filter out
the no-defect labels, attach severities, sort by descending count. -/
def defectDistribution (analyses : List WaferAnalysis) : List DefectEntry :=
  sortDesc (((patternCounts analyses).filter
      (fun nc => nc.1 ≠ "None" && nc.1 ≠ "none")).map
    (fun nc => ⟨nc.1, nc.2, severityFor nc.2⟩))

/-- `generateLotAnalysis` from the dashboard component: aggregate a batch of
wafer analyses into lot-level statistics. -/
def generateLotAnalysis (analyses : List WaferAnalysis) : LotAnalysis :=
  let dist := defectDistribution analyses
  let totalDefects := (analyses.filter (fun a => a.finalVerdict = "FAIL")).length
  let passCount := (analyses.filter (fun a => a.finalVerdict = "PASS")).length
  let topDefects := dist.take 2
  { totalWafers := analyses.length
    defectiveWafers := totalDefects
    yieldRate := if analyses.length > 0 then ((passCount : ℚ) / (analyses.length : ℚ)) * 100 else 0
    defectDistribution := dist
    systematicIssues := topDefects.map (fun d =>
      { pattern := s!"{d.name} defects detected"
        frequency := d.count
        trend := if d.count > 2 then "Increasing" else "Stable"
        rootCause := s!"Potential {d.name.toLower} pattern issue in processing" })
    recommendations :=
      if topDefects.length > 0 then
        topDefects.enum.map (fun di =>
          { priority := if di.1 = 0 then "Critical" else "High"
            action := s!"Investigate {di.2.name} defect source - {di.2.count} occurrences"
            estimatedImpact := s!"+{min (di.2.count * 2) 10}% yield improvement" })
      else
        [{ priority := "Medium"
           action := "Continue standard monitoring"
           estimatedImpact := "Maintain current yield" }] }

/-! ### Batch analysis (`runBatchAnalysis`) -/

/-- One uploaded file as held in the `uploadedImages` state. -/
structure UploadedWafer where
  id : String
  url : String
  fileName : String
  deriving DecidableEq

/-- The JSON body returned by a successful `POST /api/analyze` call, as
consumed by `runBatchAnalysis`.  `fileName` is optional there
(`data.fileName || wafer.fileName`). -/
structure ApiResponse where
  waferId : String
  fileName : Option String
  agentResults : List AgentResult
  finalVerdict : String
  confidence : ℚ
  fullProbabilityDistribution : List (String × ℚ)
  explanation : String
  severity : String
  ingestionDetails : Option IngestionDetails := none
  analysisDetails : Option AnalysisDetails := none
  validationDetails : Option ValidationDetails := none
  triggerAction : Option TriggerAction := none
  modelUsed : Option String := none
  deviceUsed : Option String := none
  deriving DecidableEq

/-- JavaScript truthiness of a string: the empty string is falsy, so
`s || d` returns `d` when `s` is absent or empty. -/
def strOrElse (s : Option String) (d : String) : String :=
  match s with
  | some v => if v = "" then d else v
  | none => d

/-- One iteration of the `for (const wafer of uploadedImages)` loop in
`runBatchAnalysis`: on a successful response the API record is pushed;
when the call throws (network error or `!response.ok`) the catch block
pushes a FAIL record with zero confidence and an explanatory message.
`detectedPattern` is `data.agentResults[0]?.topPattern || "None"`. -/
def processWafer (wafer : UploadedWafer) : Option ApiResponse → WaferAnalysis
  | some data =>
      { waferId := data.waferId
        image := wafer.url
        fileName := strOrElse data.fileName wafer.fileName
        detectedPattern :=
          strOrElse (data.agentResults.head?.map (fun a => a.topPattern)) "None"
        agentResults := data.agentResults
        finalVerdict := data.finalVerdict
        confidence := data.confidence
        fullProbabilityDistribution := data.fullProbabilityDistribution
        explanation := data.explanation
        severity := data.severity
        ingestionDetails := data.ingestionDetails
        analysisDetails := data.analysisDetails
        validationDetails := data.validationDetails
        triggerAction := data.triggerAction
        modelUsed := data.modelUsed
        deviceUsed := data.deviceUsed }
  | none =>
      { waferId := wafer.id
        image := wafer.url
        fileName := wafer.fileName
        detectedPattern := "None"
        agentResults := []
        finalVerdict := "FAIL"
        confidence := 0
        fullProbabilityDistribution := []
        explanation := "Analysis failed - please try again"
        severity := "None" }

/-- `runBatchAnalysis` over the uploaded wafers.  The per-wafer API call is
abstracted as `api : UploadedWafer → Option ApiResponse` (`none` models any
exception thrown inside the `try` block); the loop body appends exactly one
`WaferAnalysis` per uploaded wafer and never aborts. -/
def runBatchAnalysis (wafers : List UploadedWafer)
    (api : UploadedWafer → Option ApiResponse) : List WaferAnalysis :=
  wafers.map (fun w => processWafer w (api w))

/-! ### Dashboard final verdict (`getFinalVerdict`) -/

/-- The record returned by `getFinalVerdict` when analysis is complete. -/
structure FinalVerdict where
  pattern : String
  confidence : ℚ
  hasDefect : Bool
  riskLevel : String
  deriving DecidableEq

/-- The `patternCounts.forEach` maximum scan of `getFinalVerdict`: starting
from `maxCount = 0`, `consensusPattern = "None"`, replace the best pair
whenever a strictly greater count is seen. -/
def consensusFold (m : List (String × Nat)) : String × Nat :=
  m.foldl (fun best kv => if best.2 < kv.2 then kv else best) ("None", 0)

/-- The body of `getFinalVerdict`: majority vote over the agents' top
patterns (insertion-ordered count map, strict-improvement scan), average of
the agents' confidences, and the risk-level ternary. -/
def finalVerdictOf (agentResults : List AgentResult) : FinalVerdict :=
  let consensusPattern := (consensusFold (stringCounts (agentResults.map (fun a => a.topPattern)))).1
  let avgConfidence :=
    (agentResults.foldl (fun sum a => sum + a.confidence) 0) / (agentResults.length : ℚ)
  let hasDefect := consensusPattern ≠ "None"
  { pattern := consensusPattern
    confidence := avgConfidence
    hasDefect := hasDefect
    riskLevel :=
      if hasDefect ∧ avgConfidence > 85 then "High"
      else if hasDefect then "Medium" else "Low" }

/-- `getFinalVerdict` returns `null` until `analysisComplete` is set. -/
def getFinalVerdict (analysisComplete : Bool) (agentResults : List AgentResult) :
    Option FinalVerdict :=
  if analysisComplete then some (finalVerdictOf agentResults) else none

/-! ### Notifications page (`sendTestEmail`) -/

/-- Interface `NotificationConfig` from the notifications page. -/
structure NotificationConfig where
  enabled : Bool
  smtp_host : String
  smtp_port : Nat
  username : String
  password : String
  from_email : String
  alert_threshold : Nat
  recipients : List String
  daily_digest : Bool
  digest_time : String
  deriving DecidableEq

/-- The React state of the notifications page. -/
structure NotificationsPageState where
  config : NotificationConfig
  newEmail : String
  saving : Bool
  testSending : Bool
  saveStatus : Option String
  deriving DecidableEq

/-- The network request issued by `sendTestEmail`: a POST whose JSON body is
`{ recipients: config.recipients }`. -/
structure TestEmailRequest where
  endpoint : String
  recipients : List String
  deriving DecidableEq

/-- `sendTestEmail`: sets `testSending`, POSTs the configured recipient list
to the test endpoint, and clears `testSending` in the `finally` block.  The
returned request is the only outward effect; no state other than
`testSending` is touched and nothing is written to the configure endpoint. -/
def sendTestEmail (s : NotificationsPageState) :
    NotificationsPageState × TestEmailRequest :=
  let s1 := { s with testSending := true }
  let req : TestEmailRequest :=
    { endpoint := "http://localhost:8000/api/notifications/test"
      recipients := s1.config.recipients }
  ({ s1 with testSending := false }, req)

/-! ### Ensemble Arbiter (modelled from the spec) -/

/-- Modelled from the spec: the grid-input ensemble arbiter lives in the
analysis backend, which is not among the frontend sources; only the README
describes it.  Per the spec, the arbiter "selects the output whose top-label
probability is strictly greater; ties favor a fixed deterministic ordering
(first classifier wins)". -/
def ensembleArbiter (r1 r2 : AgentResult) : AgentResult :=
  if r2.confidence < r1.confidence then r1
  else if r1.confidence < r2.confidence then r2
  else r1

/-! ### Validation Stage (modelled from the spec) -/

/-- Modelled from the spec: validation states
`PENDING → {PASSED, FAILED, RETRYING}`. -/
inductive ValidationState where
  | pending
  | passed
  | failed
  | retrying
  deriving DecidableEq

/-- Modelled from the spec: one classifier invocation result as seen by the
Validation Stage. -/
structure ClassifierOutput where
  topPattern : String
  confidence : ℚ
  deriving DecidableEq

/-- Modelled from the spec: the outcome of the Validation Stage.  `result` is
the best-available classifier output, emitted even when validation fails. -/
structure ValidationOutcome where
  state : ValidationState
  attempts : Nat
  result : Option ClassifierOutput
  deriving DecidableEq

/-- Modelled from the spec: the confidence criterion of the fixed criteria
set (confidence at or above the threshold). -/
def criteriaPass (threshold : ℚ) (r : ClassifierOutput) : Bool :=
  threshold ≤ r.confidence

/-- Modelled from the spec: the bounded retry loop of the Validation Stage.
`remaining` is the number of attempts still allowed, `done` the attempts
already made, `best` the best-available result so far.  Each attempt re-runs
the classifier; on criteria success the state is PASSED, on exhaustion it is
FAILED, but a result is still carried out. -/
def validationLoop (classify : Nat → ClassifierOutput)
    (crit : ClassifierOutput → Bool) :
    Nat → Nat → Option ClassifierOutput → ValidationOutcome
  | 0, done, best => ⟨.failed, done, best⟩
  | remaining + 1, done, _best =>
      let r := classify (done + 1)
      if crit r then ⟨.passed, done + 1, some r⟩
      else validationLoop classify crit remaining (done + 1) (some r)

/-- Modelled from the spec: run the Validation Stage with the configured
maximum number of attempts (default 3). -/
def runValidation (classify : Nat → ClassifierOutput)
    (crit : ClassifierOutput → Bool) (maxAttempts : Nat) : ValidationOutcome :=
  validationLoop classify crit maxAttempts 0 none

/-! ### SPC Engine control limits and Rule 1 (modelled from the spec) -/

/-- Interface `ControlLimits` from the SPC page; the computation itself is in
the analysis backend. -/
structure ControlLimits where
  cl : ℚ
  std_dev : ℚ
  ucl : ℚ
  lcl : ℚ
  deriving DecidableEq

/-- Modelled from the spec: control limits with `UCL/LCL as CL ± 3σ clipped
to [0, 100]`. -/
def computeLimits (cl sigma : ℚ) : ControlLimits :=
  { cl := cl
    std_dev := sigma
    ucl := min 100 (cl + 3 * sigma)
    lcl := max 0 (cl - 3 * sigma) }

/-- Modelled from the spec: Western Electric Rule 1 (Critical) — point beyond
UCL or below LCL. -/
def rule1Violated (limits : ControlLimits) (value : ℚ) : Bool :=
  limits.ucl < value || value < limits.lcl

/-! ### Specification-side helpers for the consensus analysis -/

/-- The keys of an association list. -/
def keysOf (m : List (String × Nat)) : List String :=
  m.map Prod.fst

/-- Lookup of a key in an association list, zero when absent (the
`patternCounts.get(pattern) || 0` reading discipline). -/
def lookupC : List (String × Nat) → String → Nat
  | [], _ => 0
  | kv :: rest, p => if kv.1 = p then kv.2 else lookupC rest p

/-- The largest count appearing in an association list. -/
def maxSnd (m : List (String × Nat)) : Nat :=
  m.foldr (fun kv acc => max kv.2 acc) 0

/-- The elements of a list in order of first occurrence, without
duplicates. -/
def firstOccs : List String → List String
  | [] => []
  | p :: ps => p :: (firstOccs ps).filter (fun q => q ≠ p)

/-! ### Sample data for the witnesses -/

/-- A minimal wafer record with the given detected pattern and verdict. -/
def mkWafer (pattern verdict : String) : WaferAnalysis :=
  { waferId := "W-1000-X1"
    image := ""
    fileName := "wafer.npy"
    detectedPattern := pattern
    agentResults := []
    finalVerdict := verdict
    confidence := 0
    fullProbabilityDistribution := []
    explanation := ""
    severity := "None" }

/-- A ten-wafer lot with pattern counts Edge-Ring 4, Center 2, Scratch 1. -/
def sampleLot : List WaferAnalysis :=
  [mkWafer "Edge-Ring" "FAIL", mkWafer "Edge-Ring" "FAIL", mkWafer "Center" "FAIL",
   mkWafer "Edge-Ring" "FAIL", mkWafer "None" "PASS", mkWafer "Center" "FAIL",
   mkWafer "Scratch" "FAIL", mkWafer "Edge-Ring" "FAIL", mkWafer "None" "PASS",
   mkWafer "None" "PASS"]

/-- A ten-wafer lot with exactly 3 FAIL verdicts. -/
def sampleYieldLot : List WaferAnalysis :=
  [mkWafer "None" "PASS", mkWafer "None" "PASS", mkWafer "Edge-Ring" "FAIL",
   mkWafer "None" "PASS", mkWafer "None" "PASS", mkWafer "Center" "FAIL",
   mkWafer "None" "PASS", mkWafer "None" "PASS", mkWafer "Scratch" "FAIL",
   mkWafer "None" "PASS"]

/-- A lot in which no wafer shows a real defect pattern. -/
def sampleCleanLot : List WaferAnalysis :=
  [mkWafer "None" "PASS", mkWafer "None" "PASS", mkWafer "None" "PASS"]

/-- A concrete ensemble member: top pattern Edge-Ring at 0.887. -/
def memberA : AgentResult :=
  { name := "CNN Classifier"
    model := "k_cross_CNN (Pattern Detection)"
    topPattern := "Edge-Ring"
    topProbabilities := [⟨"Edge-Ring", 887/1000⟩, ⟨"Edge-Loc", 78/1000⟩, ⟨"None", 35/1000⟩]
    confidence := 887/1000
    qualityFlag := none
    description := "Detected Edge-Ring defect pattern."
    rootCauses := ["Edge bead removal process deviation"]
    actionSuggestions := ["Check EBR tool calibration"]
    heatmapUrl := none }

/-- A concrete ensemble member: top pattern Edge-Ring at 0.912. -/
def memberB : AgentResult :=
  { name := "TF Classifier"
    model := "my_model.weights.h5"
    topPattern := "Edge-Ring"
    topProbabilities := [⟨"Edge-Ring", 912/1000⟩, ⟨"Edge-Loc", 61/1000⟩, ⟨"None", 27/1000⟩]
    confidence := 912/1000
    qualityFlag := none
    description := "Visual analysis confirms peripheral defect concentration."
    rootCauses := ["Plasma etching edge effects"]
    actionSuggestions := ["Analyze plasma uniformity across wafer"]
    heatmapUrl := none }

/-- A concrete ensemble member: top confidence 0.982. -/
def memberHigh : AgentResult :=
  { memberA with
    topPattern := "Scratch"
    confidence := 982/1000
    topProbabilities := [⟨"Scratch", 982/1000⟩] }

/-- A concrete ensemble member: top confidence 0.965. -/
def memberLow : AgentResult :=
  { memberB with
    topPattern := "Scratch"
    confidence := 965/1000
    topProbabilities := [⟨"Scratch", 965/1000⟩] }

/-- A sample batch of three uploaded wafers. -/
def sampleUploads : List UploadedWafer :=
  [⟨"W-1-X1", "blob:1", "a.npy"⟩, ⟨"W-2-X2", "blob:2", "b.npy"⟩, ⟨"W-3-X3", "blob:3", "c.npy"⟩]

/-- A sample API behavior where the second wafer's pipeline fails. -/
def sampleApi (w : UploadedWafer) : Option ApiResponse :=
  if w.id = "W-2-X2" then none
  else some
    { waferId := w.id
      fileName := some w.fileName
      agentResults := [memberA]
      finalVerdict := "FAIL"
      confidence := 887/10
      fullProbabilityDistribution := [("Edge-Ring", 887/10)]
      explanation := "Edge-Ring detected."
      severity := "High" }

/-- A classifier that always reports confidence 50, below a threshold of 75. -/
def lowConfidenceClassifier : Nat → ClassifierOutput :=
  fun _ => ⟨"Edge-Ring", 50⟩

/-- A sample notifications page state. -/
def sampleNotificationsState : NotificationsPageState :=
  { config :=
      { enabled := true
        smtp_host := "smtp.gmail.com"
        smtp_port := 587
        username := "fab"
        password := "secret"
        from_email := "alerts@fab.example"
        alert_threshold := 15
        recipients := ["engineer@fab.example", "quality@fab.example"]
        daily_digest := true
        digest_time := "08:00" }
    newEmail := ""
    saving := false
    testSending := false
    saveStatus := none }

/-- Three agent results for the dashboard consensus: two vote Edge-Ring, one
votes Center, with confidences 92.3, 88.7 and 78.4. -/
def sampleAgentResults : List AgentResult :=
  [{ memberA with confidence := 923/10 },
   { memberB with confidence := 887/10 },
   { memberA with
     name := "ChatGPT Vision"
     topPattern := "Center"
     confidence := 784/10 }]

/-! ### Helper lemmas about the lot aggregation -/

theorem mem_insertDesc {e y : DefectEntry} {l : List DefectEntry}
    (h : y ∈ insertDesc e l) : y = e ∨ y ∈ l := by
  induction l with
  | nil => simpa [insertDesc] using h
  | cons x xs ih =>
    by_cases hc : e.count < x.count
    · simp only [insertDesc, if_pos hc, List.mem_cons] at h
      rcases h with h | h
      · exact Or.inr (by simp [h])
      · rcases ih h with h' | h'
        · exact Or.inl h'
        · exact Or.inr (List.mem_cons_of_mem x h')
    · simp only [insertDesc, if_neg hc, List.mem_cons] at h
      rcases h with h | h | h
      · exact Or.inl h
      · exact Or.inr (by simp [h])
      · exact Or.inr (List.mem_cons_of_mem x h)

theorem mem_sortDesc {y : DefectEntry} {l : List DefectEntry}
    (h : y ∈ sortDesc l) : y ∈ l := by
  induction l with
  | nil => simp [sortDesc] at h
  | cons x xs ih =>
    rcases mem_insertDesc (l := sortDesc xs) (by simpa [sortDesc] using h) with h' | h'
    · simp [h']
    · exact List.mem_cons_of_mem x (ih h')

/-- Every entry of the defect distribution carries the severity computed by
the count-threshold ternary. -/
theorem severity_of_mem_defectDistribution {analyses : List WaferAnalysis}
    {e : DefectEntry} (h : e ∈ defectDistribution analyses) :
    e.severity = severityFor e.count := by
  have h1 := mem_sortDesc h
  rcases List.mem_map.mp h1 with ⟨nc, _, hnc⟩
  subst hnc
  rfl

/-- The PASS and FAIL sub-lists partition a lot whose verdicts all are PASS
or FAIL. -/
theorem filter_pass_add_filter_fail (l : List WaferAnalysis)
    (hd : ∀ a ∈ l, a.finalVerdict = "PASS" ∨ a.finalVerdict = "FAIL") :
    (l.filter (fun a => a.finalVerdict = "PASS")).length +
      (l.filter (fun a => a.finalVerdict = "FAIL")).length = l.length := by
  induction l with
  | nil => simp
  | cons x xs ih =>
    have hxs : ∀ a ∈ xs, a.finalVerdict = "PASS" ∨ a.finalVerdict = "FAIL" :=
      fun a ha => hd a (List.mem_cons_of_mem _ ha)
    have hih := ih hxs
    rcases hd x (List.mem_cons_self x xs) with hx | hx <;>
      simp [List.filter_cons, hx] <;> omega

/-- **C1.** For every lot aggregation over a batch of wafer analyses, each
pattern in the resulting defect distribution is assigned severity High
exactly when its count is greater than 3, Medium exactly when its count is
greater than 1 and at most 3, and Low otherwise. -/
theorem lot_severity_classification (analyses : List WaferAnalysis)
    (e : DefectEntry) (he : e ∈ (generateLotAnalysis analyses).defectDistribution) :
    (e.severity = "High" ↔ 3 < e.count) ∧
    (e.severity = "Medium" ↔ (1 < e.count ∧ e.count ≤ 3)) ∧
    (e.severity = "Low" ↔ e.count ≤ 1) := by
  have hsev : e.severity = severityFor e.count :=
    severity_of_mem_defectDistribution (by simpa [generateLotAnalysis] using he)
  rw [hsev]
  unfold severityFor
  split_ifs with h1 h2
  · refine ⟨by simp [h1], by simp; omega, by simp; omega⟩
  · refine ⟨by simp; omega, by simp; omega, by simp; omega⟩
  · refine ⟨by simp; omega, by simp; omega, by simp; omega⟩

/-- Witness for C1: in a concrete lot, the pattern with count 4 is High,
count 2 is Medium, count 1 is Low. -/
theorem lot_severity_classification_witness :
    ((⟨"Edge-Ring", 4, "High"⟩ : DefectEntry) ∈
        (generateLotAnalysis sampleLot).defectDistribution ∧
      (⟨"Edge-Ring", 4, "High"⟩ : DefectEntry).severity = "High") ∧
    ((⟨"Center", 2, "Medium"⟩ : DefectEntry) ∈
        (generateLotAnalysis sampleLot).defectDistribution ∧
      (⟨"Center", 2, "Medium"⟩ : DefectEntry).severity = "Medium") ∧
    ((⟨"Scratch", 1, "Low"⟩ : DefectEntry) ∈
        (generateLotAnalysis sampleLot).defectDistribution ∧
      (⟨"Scratch", 1, "Low"⟩ : DefectEntry).severity = "Low") := by
  refine ⟨⟨by decide, ?_⟩, ⟨by decide, ?_⟩, ⟨by decide, ?_⟩⟩
  · exact ((lot_severity_classification sampleLot _ (by decide)).1).mpr (by decide)
  · exact ((lot_severity_classification sampleLot _ (by decide)).2.1).mpr (by decide)
  · exact ((lot_severity_classification sampleLot _ (by decide)).2.2).mpr (by decide)

/-- **C2.** For every non-empty lot, the computed yield rate equals the
number of PASS wafers divided by the total, times 100; a lot of 10 wafers
with 3 FAIL verdicts (and PASS/FAIL verdicts only) yields 70%. -/
theorem lot_yield_rate (analyses : List WaferAnalysis) (h : analyses ≠ []) :
    (generateLotAnalysis analyses).yieldRate =
      ((analyses.filter (fun a => a.finalVerdict = "PASS")).length : ℚ) /
        (analyses.length : ℚ) * 100 ∧
    (analyses.length = 10 →
      (analyses.filter (fun a => a.finalVerdict = "FAIL")).length = 3 →
      (∀ a ∈ analyses, a.finalVerdict = "PASS" ∨ a.finalVerdict = "FAIL") →
      (generateLotAnalysis analyses).yieldRate = 70) := by
  have hlen : 0 < analyses.length := List.length_pos.mpr h
  have hyield : (generateLotAnalysis analyses).yieldRate =
      ((analyses.filter (fun a => a.finalVerdict = "PASS")).length : ℚ) /
        (analyses.length : ℚ) * 100 := by
    simp only [generateLotAnalysis]
    rw [if_pos hlen]
  refine ⟨hyield, fun h10 hf hd => ?_⟩
  have hp : (analyses.filter (fun a => a.finalVerdict = "PASS")).length = 7 := by
    have := filter_pass_add_filter_fail analyses hd
    omega
  rw [hyield, hp, h10]
  norm_num

/-- Witness for C2: the concrete ten-wafer lot with 3 FAIL verdicts has
yield rate 70%. -/
theorem lot_yield_rate_witness :
    (generateLotAnalysis sampleYieldLot).yieldRate = 70 :=
  (lot_yield_rate sampleYieldLot (by decide)).2 (by decide) (by decide) (by decide)

/-- Inserting into a descending-sorted list keeps it descending-sorted. -/
theorem sorted_insertDesc (e : DefectEntry) (l : List DefectEntry)
    (h : l.Pairwise (fun a b => b.count ≤ a.count)) :
    (insertDesc e l).Pairwise (fun a b => b.count ≤ a.count) := by
  induction l with
  | nil => simp [insertDesc]
  | cons x xs ih =>
    rcases List.pairwise_cons.mp h with ⟨hx, hxs⟩
    by_cases hc : e.count < x.count
    · rw [insertDesc, if_pos hc]
      refine List.pairwise_cons.mpr ⟨?_, ih hxs⟩
      intro y hy
      rcases mem_insertDesc hy with rfl | hy'
      · exact Nat.le_of_lt hc
      · exact hx y hy'
    · rw [insertDesc, if_neg hc]
      refine List.pairwise_cons.mpr ⟨?_, h⟩
      intro y hy
      rcases List.mem_cons.mp hy with rfl | hy'
      · exact Nat.le_of_not_lt hc
      · exact le_trans (hx y hy') (Nat.le_of_not_lt hc)

/-- The stable descending sort produces a descending-sorted list. -/
theorem sorted_sortDesc (l : List DefectEntry) :
    (sortDesc l).Pairwise (fun a b => b.count ≤ a.count) := by
  induction l with
  | nil => simp [sortDesc]
  | cons x xs ih => exact sorted_insertDesc x (sortDesc xs) ih

/-- The defect-distribution field of the lot aggregate. -/
theorem generateLotAnalysis_defectDistribution (analyses : List WaferAnalysis) :
    (generateLotAnalysis analyses).defectDistribution = defectDistribution analyses := rfl

/-- The recommendations field of the lot aggregate, unfolded. -/
theorem generateLotAnalysis_recommendations (analyses : List WaferAnalysis) :
    (generateLotAnalysis analyses).recommendations =
      if ((defectDistribution analyses).take 2).length > 0 then
        ((defectDistribution analyses).take 2).enum.map (fun di =>
          { priority := if di.1 = 0 then "Critical" else "High"
            action := s!"Investigate {di.2.name} defect source - {di.2.count} occurrences"
            estimatedImpact := s!"+{min (di.2.count * 2) 10}% yield improvement" })
      else
        [{ priority := "Medium"
           action := "Continue standard monitoring"
           estimatedImpact := "Maintain current yield" }] := rfl

/-- **C5.** For every lot aggregation, the produced defect distribution has
no entry for the no-defect labels None/none, and its entries are sorted in
descending order of count. -/
theorem defect_distribution_excludes_none_and_sorted (analyses : List WaferAnalysis) :
    (∀ e ∈ (generateLotAnalysis analyses).defectDistribution,
        e.name ≠ "None" ∧ e.name ≠ "none") ∧
    ((generateLotAnalysis analyses).defectDistribution).Pairwise
      (fun a b => b.count ≤ a.count) := by
  rw [generateLotAnalysis_defectDistribution]
  constructor
  · intro e he
    have h1 := mem_sortDesc he
    rcases List.mem_map.mp h1 with ⟨nc, hmem, rfl⟩
    have h2 := (List.mem_filter.mp hmem).2
    simp only [Bool.and_eq_true, decide_eq_true_eq] at h2
    exact h2
  · exact sorted_sortDesc _

/-- Witness for C5: in the concrete lot, a distribution entry is not the
no-defect label and the whole distribution is sorted by descending count. -/
theorem defect_distribution_excludes_none_and_sorted_witness :
    ((⟨"Edge-Ring", 4, "High"⟩ : DefectEntry).name ≠ "None" ∧
      (⟨"Edge-Ring", 4, "High"⟩ : DefectEntry).name ≠ "none") ∧
    ((generateLotAnalysis sampleLot).defectDistribution).Pairwise
      (fun a b => b.count ≤ a.count) :=
  ⟨(defect_distribution_excludes_none_and_sorted sampleLot).1 _ (by decide),
   (defect_distribution_excludes_none_and_sorted sampleLot).2⟩

/-- **C6.** Every lot aggregation produces at most two systematic-issue
hypotheses; with at least one real defect pattern the first recommendation
is Critical and the rest are High, and with no real defects exactly one
Continue-standard-monitoring fallback recommendation is produced. -/
theorem lot_recommendations_priorities (analyses : List WaferAnalysis) :
    (generateLotAnalysis analyses).systematicIssues.length ≤ 2 ∧
    ((generateLotAnalysis analyses).defectDistribution ≠ [] →
      ∃ r rest, (generateLotAnalysis analyses).recommendations = r :: rest ∧
        r.priority = "Critical" ∧ ∀ r2 ∈ rest, r2.priority = "High") ∧
    ((generateLotAnalysis analyses).defectDistribution = [] →
      (generateLotAnalysis analyses).recommendations =
        [⟨"Medium", "Continue standard monitoring", "Maintain current yield"⟩]) := by
  refine ⟨?_, ?_, ?_⟩
  · have h1 : (generateLotAnalysis analyses).systematicIssues.length =
        ((defectDistribution analyses).take 2).length := by
      simp only [generateLotAnalysis]
      rw [List.length_map]
    rw [h1, List.length_take]
    omega
  · intro hne
    rw [generateLotAnalysis_defectDistribution] at hne
    rcases hd : defectDistribution analyses with _ | ⟨x, _ | ⟨y, tail⟩⟩
    · exact absurd hd hne
    · rw [generateLotAnalysis_recommendations, hd]
      exact ⟨_, [], rfl, rfl, fun r2 hr2 => by simp at hr2⟩
    · rw [generateLotAnalysis_recommendations, hd]
      refine ⟨_, [_], rfl, rfl, fun r2 hr2 => ?_⟩
      rw [List.mem_singleton] at hr2
      subst hr2
      rfl
  · intro hempty
    rw [generateLotAnalysis_defectDistribution] at hempty
    rw [generateLotAnalysis_recommendations, hempty]
    rfl

/-- Witness for C6: the concrete defective lot yields a Critical-first
recommendation list, and the clean lot yields the single fallback. -/
theorem lot_recommendations_priorities_witness :
    (generateLotAnalysis sampleLot).systematicIssues.length ≤ 2 ∧
    (∃ r rest, (generateLotAnalysis sampleLot).recommendations = r :: rest ∧
      r.priority = "Critical" ∧ ∀ r2 ∈ rest, r2.priority = "High") ∧
    (generateLotAnalysis sampleCleanLot).recommendations =
      [⟨"Medium", "Continue standard monitoring", "Maintain current yield"⟩] :=
  ⟨(lot_recommendations_priorities sampleLot).1,
   (lot_recommendations_priorities sampleLot).2.1 (by decide),
   (lot_recommendations_priorities sampleCleanLot).2.2 (by decide)⟩

/-- **C3.** A failed per-wafer pipeline call does not abort the batch: the
result list still has one entry per uploaded wafer, every wafer (before and
after the failure) is processed by the per-wafer pipeline step, and the
failed wafer is recorded with verdict FAIL, confidence 0 and the
Analysis-failed explanation. -/
theorem batch_failure_isolation (wafers : List UploadedWafer)
    (api : UploadedWafer → Option ApiResponse) (i : Nat) (w : UploadedWafer)
    (hw : wafers.get? i = some w) (hfail : api w = none) :
    (runBatchAnalysis wafers api).length = wafers.length ∧
    (∀ j, (runBatchAnalysis wafers api).get? j =
      (wafers.get? j).map (fun u => processWafer u (api u))) ∧
    (runBatchAnalysis wafers api).get? i = some
      { waferId := w.id
        image := w.url
        fileName := w.fileName
        detectedPattern := "None"
        agentResults := []
        finalVerdict := "FAIL"
        confidence := 0
        fullProbabilityDistribution := []
        explanation := "Analysis failed - please try again"
        severity := "None" } := by
  refine ⟨by simp [runBatchAnalysis], fun j => by simp [runBatchAnalysis], ?_⟩
  have h2 : (runBatchAnalysis wafers api).get? i =
      (wafers.get? i).map (fun u => processWafer u (api u)) := by
    simp [runBatchAnalysis]
  rw [h2, hw]
  simp [processWafer, hfail]

/-- Witness for C3: in a concrete three-wafer batch whose second wafer's
API call fails, the batch still yields three records and the second is the
FAIL/0/Analysis-failed record. -/
theorem batch_failure_isolation_witness :
    (runBatchAnalysis sampleUploads sampleApi).length = 3 ∧
    (runBatchAnalysis sampleUploads sampleApi).get? 1 = some
      { waferId := "W-2-X2"
        image := "blob:2"
        fileName := "b.npy"
        detectedPattern := "None"
        agentResults := []
        finalVerdict := "FAIL"
        confidence := 0
        fullProbabilityDistribution := []
        explanation := "Analysis failed - please try again"
        severity := "None" } :=
  ⟨(batch_failure_isolation sampleUploads sampleApi 1 ⟨"W-2-X2", "blob:2", "b.npy"⟩
      (by decide) (by decide)).1,
   (batch_failure_isolation sampleUploads sampleApi 1 ⟨"W-2-X2", "blob:2", "b.npy"⟩
      (by decide) (by decide)).2.2⟩

/-- **C4.** (modelled from the spec) The Ensemble Arbiter returns the member
whose top-label probability is strictly greater, the first member on ties;
with top confidences 0.982 and 0.965 the 0.982 member is selected, and with
0.887 and 0.912 the final result carries confidence 0.912 with the second
member's pattern, rationale and actions attached. -/
theorem ensemble_arbiter_best_confidence (r1 r2 : AgentResult) :
    (r2.confidence < r1.confidence → ensembleArbiter r1 r2 = r1) ∧
    (r1.confidence < r2.confidence → ensembleArbiter r1 r2 = r2) ∧
    (r1.confidence = r2.confidence → ensembleArbiter r1 r2 = r1) ∧
    (r1.confidence = 982/1000 → r2.confidence = 965/1000 →
      ensembleArbiter r1 r2 = r1) ∧
    (r1.confidence = 887/1000 → r2.confidence = 912/1000 →
      (ensembleArbiter r1 r2).confidence = 912/1000 ∧
      (ensembleArbiter r1 r2).topPattern = r2.topPattern ∧
      (ensembleArbiter r1 r2).description = r2.description ∧
      (ensembleArbiter r1 r2).rootCauses = r2.rootCauses ∧
      (ensembleArbiter r1 r2).actionSuggestions = r2.actionSuggestions) := by
  have h1 : r2.confidence < r1.confidence → ensembleArbiter r1 r2 = r1 := by
    intro h
    unfold ensembleArbiter
    rw [if_pos h]
  have h2 : r1.confidence < r2.confidence → ensembleArbiter r1 r2 = r2 := by
    intro h
    unfold ensembleArbiter
    rw [if_neg (lt_asymm h), if_pos h]
  refine ⟨h1, h2, ?_, ?_, ?_⟩
  · intro h
    unfold ensembleArbiter
    rw [if_neg (by rw [h]; exact lt_irrefl _), if_neg (by rw [h]; exact lt_irrefl _)]
  · intro ha hb
    exact h1 (by rw [ha, hb]; norm_num)
  · intro ha hb
    have heq : ensembleArbiter r1 r2 = r2 := h2 (by rw [ha, hb]; norm_num)
    rw [heq]
    exact ⟨hb, rfl, rfl, rfl, rfl⟩

/-- Witness for C4: with the concrete 0.982/0.965 members the first is
selected; with the concrete 0.887/0.912 Edge-Ring members the second is
selected, carrying its confidence, rationale and actions. -/
theorem ensemble_arbiter_best_confidence_witness :
    ensembleArbiter memberHigh memberLow = memberHigh ∧
    (ensembleArbiter memberA memberB).topPattern = "Edge-Ring" ∧
    (ensembleArbiter memberA memberB).confidence = 912/1000 ∧
    (ensembleArbiter memberA memberB).description = memberB.description ∧
    (ensembleArbiter memberA memberB).actionSuggestions = memberB.actionSuggestions :=
  ⟨(ensemble_arbiter_best_confidence memberHigh memberLow).2.2.2.1 rfl rfl,
   (ensemble_arbiter_best_confidence memberA memberB).2.2.2.2 rfl rfl |>.2.1,
   (ensemble_arbiter_best_confidence memberA memberB).2.2.2.2 rfl rfl |>.1,
   (ensemble_arbiter_best_confidence memberA memberB).2.2.2.2 rfl rfl |>.2.2.1,
   (ensemble_arbiter_best_confidence memberA memberB).2.2.2.2 rfl rfl |>.2.2.2.2⟩

/-- The retry loop never performs more attempts than it has fuel plus the
attempts already made. -/
theorem validationLoop_attempts_le (classify : Nat → ClassifierOutput)
    (crit : ClassifierOutput → Bool) :
    ∀ remaining done best,
      (validationLoop classify crit remaining done best).attempts ≤ done + remaining := by
  intro remaining
  induction remaining with
  | zero =>
    intro done best
    simp [validationLoop]
  | succ k ih =>
    intro done best
    by_cases h : crit (classify (done + 1))
    · simp only [validationLoop, h, if_pos]
      omega
    · simp only [validationLoop, h, if_neg, Bool.false_eq_true, if_false]
      have := ih (done + 1) (some (classify (done + 1)))
      omega

/-- When every attempt fails the criteria, the retry loop exhausts its fuel
and ends FAILED with the last classifier output as best-available result. -/
theorem validationLoop_always_fail (classify : Nat → ClassifierOutput)
    (crit : ClassifierOutput → Bool) (hcrit : ∀ n, crit (classify n) = false) :
    ∀ remaining done best, remaining ≠ 0 →
      validationLoop classify crit remaining done best =
        ⟨.failed, done + remaining, some (classify (done + remaining))⟩ := by
  intro remaining
  induction remaining with
  | zero =>
    intro done best h
    exact absurd rfl h
  | succ k ih =>
    intro done best _
    simp only [validationLoop, hcrit (done + 1), Bool.false_eq_true, if_false]
    rcases Nat.eq_zero_or_pos k with rfl | hk
    · simp [validationLoop]
    · have harith : done + 1 + k = done + (k + 1) := by omega
      rw [ih (done + 1) (some (classify (done + 1))) (by omega), harith]

/-- **C7.** (modelled from the spec) The Validation Stage never performs more
than the configured maximum number of attempts; for a classifier that always
reports confidence below threshold and max attempts 3, the final state is
FAILED after exactly 3 attempts, and a best-available result is still
emitted. -/
theorem validation_bounded_retry (classify : Nat → ClassifierOutput) (threshold : ℚ)
    (hlow : ∀ n, (classify n).confidence < threshold) :
    (∀ crit maxAttempts,
      (runValidation classify crit maxAttempts).attempts ≤ maxAttempts) ∧
    runValidation classify (criteriaPass threshold) 3 =
      ⟨.failed, 3, some (classify 3)⟩ := by
  constructor
  · intro crit maxAttempts
    have h := validationLoop_attempts_le classify crit maxAttempts 0 none
    simpa [runValidation] using h
  · have hcrit : ∀ n, criteriaPass threshold (classify n) = false := by
      intro n
      exact decide_eq_false (not_le.mpr (hlow n))
    have h := validationLoop_always_fail classify _ hcrit 3 0 none (by omega)
    simpa [runValidation] using h

/-- Witness for C7: the constant low-confidence classifier with threshold 75
and max attempts 3 ends FAILED after exactly 3 attempts with a result. -/
theorem validation_bounded_retry_witness :
    (runValidation lowConfidenceClassifier (criteriaPass 75) 3).attempts ≤ 3 ∧
    runValidation lowConfidenceClassifier (criteriaPass 75) 3 =
      ⟨.failed, 3, some ⟨"Edge-Ring", 50⟩⟩ :=
  ⟨(validation_bounded_retry lowConfidenceClassifier 75
      (fun _ => by norm_num [lowConfidenceClassifier])).1 (criteriaPass 75) 3,
   (validation_bounded_retry lowConfidenceClassifier 75
      (fun _ => by norm_num [lowConfidenceClassifier])).2⟩

/-- **C8.** (modelled from the spec) Western Electric Rule 1 is recorded as
violated if and only if the defect rate is strictly above CL + 3σ or
strictly below CL − 3σ, for rates in the meaningful percentage range. -/
theorem spc_rule1_iff (cl sigma value : ℚ) (h0 : 0 ≤ value) (h100 : value ≤ 100) :
    rule1Violated (computeLimits cl sigma) value = true ↔
      (cl + 3 * sigma < value ∨ value < cl - 3 * sigma) := by
  unfold rule1Violated computeLimits
  simp only [Bool.or_eq_true, decide_eq_true_eq]
  constructor
  · rintro (h | h)
    · rcases le_total (cl + 3 * sigma) 100 with hle | hle
      · rw [min_eq_right hle] at h
        exact Or.inl h
      · rw [min_eq_left hle] at h
        exact absurd h (not_lt.mpr h100)
    · rcases le_total (cl - 3 * sigma) 0 with hle | hle
      · rw [max_eq_left hle] at h
        exact absurd h (not_lt.mpr h0)
      · rw [max_eq_right hle] at h
        exact Or.inr h
  · rintro (h | h)
    · exact Or.inl (lt_of_le_of_lt (min_le_right _ _) h)
    · exact Or.inr (lt_of_lt_of_le h (le_max_right _ _))

/-- Witness for C8: with CL = 10 and σ = 2, a point at 17 triggers Rule 1. -/
theorem spc_rule1_witness :
    rule1Violated (computeLimits 10 2) 17 = true :=
  (spc_rule1_iff 10 2 17 (by norm_num) (by norm_num)).mpr (Or.inl (by norm_num))

/-- **C9.** Sending a test email uses only the configured recipient list,
posts to the test endpoint, and leaves the page state — in particular every
field of the NotificationConfig — unchanged (only the transient
`testSending` flag is toggled and restored). -/
theorem send_test_email_preserves_config (s : NotificationsPageState) :
    (sendTestEmail s).1.config = s.config ∧
    (sendTestEmail s).2.recipients = s.config.recipients ∧
    (sendTestEmail s).2.endpoint = "http://localhost:8000/api/notifications/test" ∧
    (sendTestEmail s).1 = { s with testSending := false } :=
  ⟨rfl, rfl, rfl, rfl⟩

/-! ### Lemmas about the insertion-ordered count map -/

/-- The keys of a cons. -/
theorem keysOf_cons (kv : String × Nat) (m : List (String × Nat)) :
    keysOf (kv :: m) = kv.1 :: keysOf m := rfl

/-- `bump` leaves the keys unchanged when the key is present and appends it
otherwise. -/
theorem keysOf_bump (m : List (String × Nat)) (p : String) :
    keysOf (bump m p) =
      if p ∈ keysOf m then keysOf m else keysOf m ++ [p] := by
  induction m with
  | nil => simp [bump, keysOf]
  | cons qc rest ih =>
    obtain ⟨q, c⟩ := qc
    by_cases hq : q = p
    · subst hq
      rw [bump, if_pos rfl, keysOf_cons, keysOf_cons,
        if_pos (List.mem_cons_self _ _)]
    · rw [bump, if_neg hq, keysOf_cons, keysOf_cons, ih]
      by_cases hmem : p ∈ keysOf rest
      · rw [if_pos hmem, if_pos (List.mem_cons_of_mem _ hmem)]
      · rw [if_neg hmem, if_neg (by
          rw [List.mem_cons]
          push_neg
          exact ⟨fun hpq => hq hpq.symm, hmem⟩)]
        rfl

/-- `bump` increments the looked-up count of its key. -/
theorem lookupC_bump_self (m : List (String × Nat)) (p : String) :
    lookupC (bump m p) p = lookupC m p + 1 := by
  induction m with
  | nil => simp [bump, lookupC]
  | cons qc rest ih =>
    obtain ⟨q, c⟩ := qc
    by_cases hq : q = p
    · subst hq
      rw [bump, if_pos rfl, lookupC, lookupC, if_pos rfl, if_pos rfl]
    · rw [bump, if_neg hq, lookupC, lookupC, if_neg hq, if_neg hq]
      exact ih

/-- `bump` does not change the looked-up count of other keys. -/
theorem lookupC_bump_other (m : List (String × Nat)) (p q : String) (h : q ≠ p) :
    lookupC (bump m p) q = lookupC m q := by
  induction m with
  | nil =>
    rw [bump, lookupC, lookupC, if_neg (fun hpq => h hpq.symm)]
    rfl
  | cons rc rest ih =>
    obtain ⟨r, c⟩ := rc
    by_cases hr : r = p
    · subst hr
      rw [bump, if_pos rfl, lookupC, lookupC,
        if_neg (fun hrq => h hrq.symm), if_neg (fun hrq => h hrq.symm)]
    · rw [bump, if_neg hr, lookupC, lookupC]
      by_cases hrq : r = q
      · rw [if_pos hrq, if_pos hrq]
      · rw [if_neg hrq, if_neg hrq]
        exact ih

/-- Folding `bump` over a pattern list adds each pattern's multiplicity to
the looked-up count. -/
theorem lookupC_foldl_bump (ps : List String) :
    ∀ (m : List (String × Nat)) (p : String),
      lookupC (ps.foldl bump m) p = lookupC m p + ps.count p := by
  induction ps with
  | nil => intro m p; simp
  | cons a ps ih =>
    intro m p
    rw [List.foldl_cons, ih (bump m a) p]
    by_cases ha : a = p
    · subst ha
      rw [lookupC_bump_self, List.count_cons_self]
      omega
    · rw [lookupC_bump_other m a p (fun h => ha h.symm),
        List.count_cons_of_ne (fun hpa => ha hpa.symm)]

/-- `bump` preserves key distinctness. -/
theorem keysOf_bump_nodup (m : List (String × Nat)) (p : String)
    (h : (keysOf m).Nodup) : (keysOf (bump m p)).Nodup := by
  rw [keysOf_bump]
  by_cases hmem : p ∈ keysOf m
  · rw [if_pos hmem]
    exact h
  · rw [if_neg hmem]
    simp [List.nodup_append, h, hmem]

/-- Folding `bump` preserves key distinctness. -/
theorem keysOf_foldl_bump_nodup (ps : List String) :
    ∀ m : List (String × Nat), (keysOf m).Nodup → (keysOf (ps.foldl bump m)).Nodup := by
  induction ps with
  | nil => intro m h; exact h
  | cons a ps ih =>
    intro m h
    rw [List.foldl_cons]
    exact ih (bump m a) (keysOf_bump_nodup m a h)

/-- `firstOccs` has the same members as the original list. -/
theorem mem_firstOccs (p : String) : ∀ l : List String, p ∈ firstOccs l ↔ p ∈ l := by
  intro l
  induction l with
  | nil => simp [firstOccs]
  | cons q l ih =>
    rw [firstOccs]
    by_cases hpq : p = q
    · simp [hpq]
    · simp [List.mem_filter, hpq, ih]

/-- `firstOccs` has no duplicates. -/
theorem nodup_firstOccs : ∀ l : List String, (firstOccs l).Nodup := by
  intro l
  induction l with
  | nil => simp [firstOccs]
  | cons q l ih =>
    rw [firstOccs, List.nodup_cons]
    exact ⟨by simp [List.mem_filter], ih.filter _⟩

/-- `firstOccs` commutes with filtering. -/
theorem firstOccs_filter (Q : String → Bool) :
    ∀ l : List String, firstOccs (l.filter Q) = (firstOccs l).filter Q := by
  intro l
  induction l with
  | nil => simp [firstOccs]
  | cons q l ih =>
    by_cases hq : Q q
    · rw [List.filter_cons_of_pos hq, firstOccs, firstOccs, ih,
        List.filter_cons_of_pos hq, List.filter_filter, List.filter_filter]
      exact congrArg _ (List.filter_congr (fun a _ => Bool.and_comm _ _))
    · have hq' : Q q = false := by
        revert hq
        cases Q q <;> simp
      rw [List.filter_cons_of_neg (by simp [hq']), firstOccs, ih,
        List.filter_cons_of_neg (by simp [hq']), List.filter_filter]
      refine (List.filter_congr (fun a _ => ?_)).symm
      by_cases hQa : Q a
      · have : a ≠ q := fun h => by
          rw [h, hq'] at hQa
          exact absurd hQa (by simp)
        simp [hQa, this]
      · have : Q a = false := by
          revert hQa
          cases Q a <;> simp
        simp [this]

/-- Filtering out one element that fails the search predicate does not
change the result of `find?`. -/
theorem find?_filter_ne (P : String → Bool) (p : String) (hP : P p = false) :
    ∀ l : List String, (l.filter (fun q => q ≠ p)).find? P = l.find? P := by
  intro l
  induction l with
  | nil => rfl
  | cons a l ih =>
    by_cases ha : a = p
    · subst ha
      rw [List.filter_cons_of_neg (by simp), List.find?_cons_of_neg _ (by simp [hP]), ih]
    · rw [List.filter_cons_of_pos (by simp [ha])]
      by_cases hPa : P a
      · rw [List.find?_cons_of_pos _ hPa, List.find?_cons_of_pos _ hPa]
      · rw [List.find?_cons_of_neg _ hPa, List.find?_cons_of_neg _ hPa, ih]

/-- Searching the first-occurrence list is the same as searching the
original list. -/
theorem firstOccs_find? (P : String → Bool) :
    ∀ l : List String, (firstOccs l).find? P = l.find? P := by
  intro l
  induction l with
  | nil => rfl
  | cons q l ih =>
    rw [firstOccs]
    by_cases hq : P q
    · rw [List.find?_cons_of_pos _ hq, List.find?_cons_of_pos _ hq]
    · have hq' : P q = false := by
        revert hq
        cases P q <;> simp
      rw [List.find?_cons_of_neg _ hq, List.find?_cons_of_neg _ hq,
        find?_filter_ne P q hq', ih]

/-- The keys produced by folding `bump` are the first occurrences of the
new patterns, appended to the existing keys. -/
theorem keysOf_foldl_bump (ps : List String) :
    ∀ m : List (String × Nat),
      keysOf (ps.foldl bump m) =
        keysOf m ++ firstOccs (ps.filter (fun p => p ∉ keysOf m)) := by
  induction ps with
  | nil => intro m; simp [firstOccs]
  | cons a ps ih =>
    intro m
    rw [List.foldl_cons, ih (bump m a), keysOf_bump]
    by_cases ha : a ∈ keysOf m
    · rw [if_pos ha, List.filter_cons_of_neg (by simp [ha])]
    · rw [if_neg ha, List.filter_cons_of_pos (by simp [ha]), firstOccs,
        List.append_assoc]
      refine congrArg _ ?_
      rw [List.singleton_append]
      refine congrArg _ ?_
      rw [← firstOccs_filter, List.filter_filter]
      refine congrArg firstOccs (List.filter_congr (fun p _ => ?_))
      by_cases h1 : p = a <;> by_cases h2 : p ∈ keysOf m <;>
        simp [h1, h2, List.mem_append]

/-- `maxSnd` of a cons. -/
theorem maxSnd_cons (kv : String × Nat) (m : List (String × Nat)) :
    maxSnd (kv :: m) = max kv.2 (maxSnd m) := rfl

/-- Every count in an association list is at most `maxSnd`. -/
theorem le_maxSnd_of_mem {kv : String × Nat} {m : List (String × Nat)}
    (h : kv ∈ m) : kv.2 ≤ maxSnd m := by
  induction m with
  | nil => simp at h
  | cons x xs ih =>
    rw [maxSnd_cons]
    rcases List.mem_cons.mp h with rfl | h'
    · exact Nat.le_max_left _ _
    · exact le_trans (ih h') (Nat.le_max_right _ _)

/-- The strict-improvement scan keeps its accumulator when nothing in the
list beats it. -/
theorem consensus_scan_of_maxSnd_le (m : List (String × Nat)) :
    ∀ b : String × Nat, maxSnd m ≤ b.2 →
      m.foldl (fun best kv => if best.2 < kv.2 then kv else best) b = b := by
  induction m with
  | nil => intro b _; rfl
  | cons kv rest ih =>
    intro b hb
    rw [maxSnd_cons] at hb
    rw [List.foldl_cons, if_neg (by omega)]
    exact ih b (by omega)

/-- When something in the list beats the accumulator, the strict-improvement
scan returns the first entry whose count equals the maximum. -/
theorem consensus_scan_find (m : List (String × Nat)) :
    ∀ b : String × Nat, b.2 < maxSnd m →
      m.find? (fun kv => kv.2 = maxSnd m) =
        some (m.foldl (fun best kv => if best.2 < kv.2 then kv else best) b) := by
  induction m with
  | nil =>
    intro b hb
    simp [maxSnd] at hb
  | cons kv rest ih =>
    intro b hb
    rcases le_or_lt (maxSnd rest) kv.2 with hA | hB
    · have hM : maxSnd (kv :: rest) = kv.2 := by
        rw [maxSnd_cons]
        exact Nat.max_eq_left hA
      rw [hM] at hb ⊢
      rw [List.find?_cons_of_pos _ (by simp), List.foldl_cons, if_pos hb,
        consensus_scan_of_maxSnd_le rest kv hA]
    · have hM : maxSnd (kv :: rest) = maxSnd rest := by
        rw [maxSnd_cons]
        exact Nat.max_eq_right (Nat.le_of_lt hB)
      rw [hM] at hb ⊢
      rw [List.find?_cons_of_neg _ (by simp; omega), List.foldl_cons]
      by_cases hbk : b.2 < kv.2
      · rw [if_pos hbk]
        exact ih kv hB
      · rw [if_neg hbk]
        exact ih b hb

/-- An association list with distinct keys is the tabulation of its lookup
function over its keys. -/
theorem assoc_eq_map_keys (m : List (String × Nat)) (hnd : (keysOf m).Nodup) :
    m = (keysOf m).map (fun p => (p, lookupC m p)) := by
  induction m with
  | nil => rfl
  | cons kv rest ih =>
    obtain ⟨q, c⟩ := kv
    rw [keysOf_cons] at hnd ⊢
    rcases List.nodup_cons.mp hnd with ⟨hq, hrest⟩
    rw [List.map_cons]
    have h1 : lookupC ((q, c) :: rest) q = c := by
      rw [lookupC, if_pos rfl]
    have h2 : (keysOf rest).map (fun p => (p, lookupC ((q, c) :: rest) p)) =
        (keysOf rest).map (fun p => (p, lookupC rest p)) := by
      refine List.map_congr_left (fun p hp => ?_)
      have hpq : (q : String) ≠ p := fun h => hq (h ▸ hp)
      rw [lookupC, if_neg hpq]
    rw [h1, h2, ← ih hrest]

/-- The count map over a pattern list is the tabulation of the pattern
multiplicities over the first occurrences. -/
theorem stringCounts_eq (ps : List String) :
    stringCounts ps = (firstOccs ps).map (fun p => (p, ps.count p)) := by
  have hk : keysOf (stringCounts ps) = firstOccs ps := by
    have h := keysOf_foldl_bump ps []
    simpa [stringCounts, keysOf] using h
  have hnd : (keysOf (stringCounts ps)).Nodup := by
    refine keysOf_foldl_bump_nodup ps [] ?_
    simp [keysOf]
  have h := assoc_eq_map_keys (stringCounts ps) hnd
  rw [hk] at h
  rw [h]
  refine List.map_congr_left (fun p _ => ?_)
  have hl : lookupC (stringCounts ps) p = ps.count p := by
    have := lookupC_foldl_bump ps [] p
    simpa [stringCounts, lookupC] using this
  rw [hl]

/-- Summing with `foldl` from an offset equals the offset plus the list
sum. -/
theorem foldl_confidence_sum (l : List AgentResult) :
    ∀ s : ℚ, l.foldl (fun sum a => sum + a.confidence) s =
      s + (l.map (fun a => a.confidence)).sum := by
  induction l with
  | nil => intro s; simp
  | cons a l ih =>
    intro s
    rw [List.foldl_cons, ih (s + a.confidence), List.map_cons, List.sum_cons]
    ring

/-- The consensus scan over the insertion-ordered count map returns the most
frequent pattern, the first such pattern in list order on ties. -/
theorem consensus_first_max (ps : List String) (hne : ps ≠ []) :
    (∀ p ∈ ps, ps.count p ≤ ps.count (consensusFold (stringCounts ps)).1) ∧
    ps.find? (fun p => ps.count p = ps.count (consensusFold (stringCounts ps)).1) =
      some (consensusFold (stringCounts ps)).1 := by
  have hMpos : 0 < maxSnd (stringCounts ps) := by
    obtain ⟨a, ha⟩ := List.exists_mem_of_ne_nil ps hne
    have hmem : (a, ps.count a) ∈ stringCounts ps := by
      rw [stringCounts_eq]
      exact List.mem_map.mpr ⟨a, (mem_firstOccs a ps).mpr ha, rfl⟩
    have h1 : ps.count a ≤ maxSnd (stringCounts ps) := le_maxSnd_of_mem hmem
    have h2 : 0 < ps.count a := List.count_pos_iff.mpr ha
    omega
  have hcc := consensus_scan_find (stringCounts ps) ("None", 0) hMpos
  have hcceq : (stringCounts ps).find?
      (fun kv => kv.2 = maxSnd (stringCounts ps)) = some (consensusFold (stringCounts ps)) := hcc
  have hcmem : consensusFold (stringCounts ps) ∈ stringCounts ps :=
    List.mem_of_find?_eq_some hcceq
  have hcpred : (consensusFold (stringCounts ps)).2 = maxSnd (stringCounts ps) := by
    have := List.find?_some hcceq
    simpa using this
  have hc1 : ps.count (consensusFold (stringCounts ps)).1 =
      (consensusFold (stringCounts ps)).2 := by
    have hcmem2 : consensusFold (stringCounts ps) ∈
        (firstOccs ps).map (fun p => (p, ps.count p)) := by
      rw [← stringCounts_eq]
      exact hcmem
    rcases List.mem_map.mp hcmem2 with ⟨p0, _, hp0⟩
    rw [← hp0]
  have hcmax : ps.count (consensusFold (stringCounts ps)).1 =
      maxSnd (stringCounts ps) := by rw [hc1, hcpred]
  constructor
  · intro p hp
    have hmem : (p, ps.count p) ∈ stringCounts ps := by
      rw [stringCounts_eq]
      exact List.mem_map.mpr ⟨p, (mem_firstOccs p ps).mpr hp, rfl⟩
    have := le_maxSnd_of_mem hmem
    rw [hcmax]
    exact this
  · rw [hcmax]
    have hmapfind : ((firstOccs ps).map (fun p => (p, ps.count p))).find?
        (fun kv => kv.2 = maxSnd (stringCounts ps)) =
        some (consensusFold (stringCounts ps)) := by
      rw [← stringCounts_eq]
      exact hcceq
    rw [List.find?_map] at hmapfind
    rcases Option.map_eq_some'.mp hmapfind with ⟨p1, hp1, hp1c⟩
    have hfo : (firstOccs ps).find?
        (fun p => ps.count p = maxSnd (stringCounts ps)) = some p1 := by
      rw [← hp1]
      rfl
    have hp1eq : p1 = (consensusFold (stringCounts ps)).1 := by
      rw [← hp1c]
    rw [firstOccs_find?] at hfo
    rw [← hp1eq]
    exact hfo

/-- **C10.** For every completed dashboard analysis with a non-empty agent
list, the final verdict is the majority vote over the agents' top patterns
(first pattern reaching the maximal count wins ties), its confidence is the
arithmetic mean of the agents' confidences, and the risk level is High
exactly when the consensus is a defect with mean confidence above 85,
Medium for a defect otherwise, and Low when no defect is found. -/
theorem dashboard_consensus_majority (agents : List AgentResult) (h : agents ≠ []) :
    getFinalVerdict true agents = some (finalVerdictOf agents) ∧
    (∀ p ∈ agents.map (fun a => a.topPattern),
      (agents.map (fun a => a.topPattern)).count p ≤
        (agents.map (fun a => a.topPattern)).count (finalVerdictOf agents).pattern) ∧
    (agents.map (fun a => a.topPattern)).find?
        (fun p => (agents.map (fun a => a.topPattern)).count p =
          (agents.map (fun a => a.topPattern)).count (finalVerdictOf agents).pattern) =
      some (finalVerdictOf agents).pattern ∧
    (finalVerdictOf agents).confidence =
      (agents.map (fun a => a.confidence)).sum / (agents.length : ℚ) ∧
    ((finalVerdictOf agents).riskLevel = "High" ↔
      ((finalVerdictOf agents).pattern ≠ "None" ∧
        85 < (finalVerdictOf agents).confidence)) ∧
    ((finalVerdictOf agents).riskLevel = "Medium" ↔
      ((finalVerdictOf agents).pattern ≠ "None" ∧
        (finalVerdictOf agents).confidence ≤ 85)) ∧
    ((finalVerdictOf agents).riskLevel = "Low" ↔
      (finalVerdictOf agents).pattern = "None") := by
  have hps : agents.map (fun a => a.topPattern) ≠ [] := by
    intro hmap
    exact h (List.map_eq_nil_iff.mp hmap)
  have hcf := consensus_first_max (agents.map (fun a => a.topPattern)) hps
  have hpat : (finalVerdictOf agents).pattern =
      (consensusFold (stringCounts (agents.map (fun a => a.topPattern)))).1 := rfl
  have hconf : (finalVerdictOf agents).confidence =
      (agents.foldl (fun sum a => sum + a.confidence) 0) / (agents.length : ℚ) := rfl
  have hrisk : (finalVerdictOf agents).riskLevel =
      if ((finalVerdictOf agents).pattern ≠ "None" ∧
          (finalVerdictOf agents).confidence > 85) then "High"
      else if (finalVerdictOf agents).pattern ≠ "None" then "Medium"
      else "Low" := rfl
  refine ⟨rfl, ?_, ?_, ?_, ?_, ?_, ?_⟩
  · rw [hpat]
    exact hcf.1
  · rw [hpat]
    exact hcf.2
  · rw [hconf, foldl_confidence_sum agents 0, zero_add]
  · by_cases h1 : (finalVerdictOf agents).pattern ≠ "None" ∧
        (finalVerdictOf agents).confidence > 85
    · rw [if_pos h1] at hrisk
      exact ⟨fun _ => h1, fun _ => hrisk⟩
    · constructor
      · intro hH
        by_cases h2 : (finalVerdictOf agents).pattern ≠ "None"
        · rw [if_neg h1, if_pos h2] at hrisk
          rw [hrisk] at hH
          exact absurd hH (by decide)
        · rw [if_neg h1, if_neg h2] at hrisk
          rw [hrisk] at hH
          exact absurd hH (by decide)
      · intro hcond
        exact absurd hcond h1
  · by_cases h1 : (finalVerdictOf agents).pattern ≠ "None" ∧
        (finalVerdictOf agents).confidence > 85
    · rw [if_pos h1] at hrisk
      constructor
      · intro hM
        rw [hrisk] at hM
        exact absurd hM (by decide)
      · rintro ⟨_, hle⟩
        exact absurd h1.2 (not_lt.mpr hle)
    · by_cases h2 : (finalVerdictOf agents).pattern ≠ "None"
      · rw [if_neg h1, if_pos h2] at hrisk
        have hle : (finalVerdictOf agents).confidence ≤ 85 := by
          by_contra hgt
          exact h1 ⟨h2, lt_of_not_le hgt⟩
        exact ⟨fun _ => ⟨h2, hle⟩, fun _ => hrisk⟩
      · rw [if_neg h1, if_neg h2] at hrisk
        constructor
        · intro hM
          rw [hrisk] at hM
          exact absurd hM (by decide)
        · rintro ⟨hne2, _⟩
          exact absurd hne2 h2
  · by_cases h1 : (finalVerdictOf agents).pattern ≠ "None" ∧
        (finalVerdictOf agents).confidence > 85
    · rw [if_pos h1] at hrisk
      constructor
      · intro hL
        rw [hrisk] at hL
        exact absurd hL (by decide)
      · intro hN
        exact absurd hN h1.1
    · by_cases h2 : (finalVerdictOf agents).pattern ≠ "None"
      · rw [if_neg h1, if_pos h2] at hrisk
        constructor
        · intro hL
          rw [hrisk] at hL
          exact absurd hL (by decide)
        · intro hN
          exact absurd hN h2
      · rw [if_neg h1, if_neg h2] at hrisk
        exact ⟨fun _ => not_not.mp h2, fun _ => hrisk⟩

/-- Witness for C10: over the concrete three-agent results (two Edge-Ring
votes at 92.3 and 88.7, one Center vote at 78.4) the completed dashboard
verdict exists, the majority characterization holds, and the consensus is
Edge-Ring with High risk. -/
theorem dashboard_consensus_majority_witness :
    getFinalVerdict true sampleAgentResults = some (finalVerdictOf sampleAgentResults) ∧
    (sampleAgentResults.map (fun a => a.topPattern)).find?
        (fun p => (sampleAgentResults.map (fun a => a.topPattern)).count p =
          (sampleAgentResults.map (fun a => a.topPattern)).count
            (finalVerdictOf sampleAgentResults).pattern) =
      some (finalVerdictOf sampleAgentResults).pattern ∧
    (finalVerdictOf sampleAgentResults).pattern = "Edge-Ring" ∧
    (finalVerdictOf sampleAgentResults).riskLevel = "High" := by
  have hthm := dashboard_consensus_majority sampleAgentResults (by decide)
  refine ⟨hthm.1, hthm.2.2.1, by decide, (hthm.2.2.2.2.1).mpr ⟨by decide, ?_⟩⟩
  rw [hthm.2.2.2.1]
  norm_num [sampleAgentResults, memberA, memberB]

end WaferDetect
